import Mathlib

/-!
# Verification of the larrsson trading-alert repository

A shallow embedding of the core logic of the repository:

* `src/indicator.py` — the Larsson-line indicator: `smma` (Wilder smoothing),
  `calculate_larsson_line` (per-bar colour classification) and `detect_signals`
  (edge-triggered BUY/SELL signals);
* `src/config.py` — the persisted asset state and `update_asset_state`;
* `src/main.py` — the `check_indicators` check cycle;
* `src/webapp.py` — the `MarketIndexer` symbol-search index.

Python floats are modelled as `ℚ` (the classified properties are order/logic
properties, not rounding properties); pandas `NaN` entries (smoothed values
before the first defined index) are modelled as `Option ℚ` with `none`, and
pandas comparisons involving `NaN`, which evaluate to `False`, are modelled by
`optLt`.  Python dicts (the JSON state document and the market entries) are
modelled as ordered association lists with dict-assignment semantics (`aset`).
-/

namespace Larrsson

/-! ## Model of the Python string operations used by the code

`str.upper()` and the substring operator `in` (both are used only on ASCII
symbol/name data in this repository).  They are written as structural
recursions over the character list of the string so that every theorem below
can be evaluated by the kernel.
-/

/-- Model of Python `str.upper()`: uppercase every character. -/
def pyUpper (s : String) : String := ⟨s.data.map Char.toUpper⟩

/-- Boolean prefix test on character lists. -/
def charsPre : List Char → List Char → Bool
  | [], _ => true
  | _ :: _, [] => false
  | a :: as, b :: bs => a = b && charsPre as bs

/-- Boolean substring test on character lists. -/
def charsSub (needle : List Char) : List Char → Bool
  | [] => charsPre needle []
  | c :: rest => charsPre needle (c :: rest) || charsSub needle rest

/-- Model of Python `needle in hay` for strings: substring containment. -/
def pyIn (needle hay : String) : Bool := charsSub needle.data hay.data

/-! ## Data model: bars and series (`src/indicator.py`)

Only the `high`, `low` and `close` columns are read by the indicator and the
check cycle, so a `Bar` carries exactly those.
-/

/-- One daily OHLC bar (the columns the logic of the repository reads). -/
structure Bar where
  high : ℚ
  low : ℚ
  close : ℚ
deriving DecidableEq, Repr, Inhabited

/-- Midpoint series, indicator.py line 38: hl2 is the mean of the high and low columns. -/
def hl2 (df : List Bar) : List ℚ := df.map (fun b => (b.high + b.low) / 2)

/-! ## SMMA (`smma`, indicator.py lines 9-24) -/

/-- The loop of `smma` (indicator.py lines 21-22): starting from the previous
output `prev`, each subsequent output is `(prev * (length - 1) + x) / length`. -/
def smmaRun (length : ℕ) (prev : ℚ) : List ℚ → List ℚ
  | [] => []
  | x :: xs =>
    let v := (prev * ((length : ℚ) - 1) + x) / (length : ℚ)
    v :: smmaRun length v xs

/-- The output column of `smma` on a series of at least `length` inputs:
`NaN` (here `none`) before index `length - 1`, the simple mean of the first
`length` inputs at index `length - 1`, then the smoothing recurrence. -/
def smmaList (s : List ℚ) (length : ℕ) : List (Option ℚ) :=
  List.replicate (length - 1) none
    ++ some ((s.take length).sum / (length : ℚ))
      :: (smmaRun length ((s.take length).sum / (length : ℚ)) (s.drop length)).map some

/-- Function `smma` (indicator.py lines 9-24).  The assignment
`result.iloc[length - 1] = sma_first` raises `IndexError` when the series is
shorter than `length`; otherwise the output column of `smmaList` is returned.
(The repository only ever calls it with `length ≥ 1`, namely 15, 19, 25, 29.) -/
def smma (s : List ℚ) (length : ℕ) : Except String (List (Option ℚ)) :=
  if s.length < length then .error "IndexError" else .ok (smmaList s length)

/-! ## Classification (`calculate_larsson_line`, indicator.py lines 27-76) -/

/-- pandas `<` on float columns: a comparison involving `NaN` (an undefined
smoothed value, modelled `none`) evaluates to `False`. -/
def optLt (a b : Option ℚ) : Bool :=
  match a, b with
  | some x, some y => decide (x < y)
  | _, _ => false

/-- The value of an output column at row `i` (`none` when out of range,
which never happens for the indices the code uses). -/
def valAt (l : List (Option ℚ)) (i : ℕ) : Option ℚ := l[i]?.getD none

/-- Function `get_color` (indicator.py lines 56-62): orange if `p1`, silver if `p2`,
else navy. -/
def get_color (row_p1 row_p2 _row_p3 : Bool) : String :=
  if row_p1 then "orange" else if row_p2 then "silver" else "navy"

/-- One row of the classification result: the bar plus the added columns
`v1, m1, m2, v2, p1, p2, p3, color`. -/
structure LarssonRow where
  bar : Bar
  v1 : Option ℚ
  m1 : Option ℚ
  m2 : Option ℚ
  v2 : Option ℚ
  p1 : Bool
  p2 : Bool
  p3 : Bool
  color : String
deriving DecidableEq, Repr, Inhabited

/-- Row `i` of the result: the pattern flags of indicator.py lines 51-53,
`p2 = ((v1 < m1) != (v1 < v2)) | ((m2 < v2) != (v1 < v2))`,
`p3 = (~p2) & (v1 < v2)`, `p1 = (~p2) & (~p3)`, and the colour from
`get_color`. -/
def mkRow (b : Bar) (a m c d : Option ℚ) : LarssonRow :=
  let q2 := (optLt a m != optLt a d) || (optLt c d != optLt a d)
  let q3 := !q2 && optLt a d
  let q1 := !q2 && !q3
  { bar := b, v1 := a, m1 := m, m2 := c, v2 := d,
    p1 := q1, p2 := q2, p3 := q3, color := get_color q1 q2 q3 }

/-- All rows of the classification result, one per bar of the input frame. -/
def mkRows (df : List Bar) (v1 m1 m2 v2 : List (Option ℚ)) : List LarssonRow :=
  (List.range df.length).map (fun i =>
    mkRow (df[i]?.getD default) (valAt v1 i) (valAt m1 i) (valAt m2 i) (valAt v2 i))

/-- Function `calculate_larsson_line` (indicator.py lines 27-76): smooth the midpoint
series with windows 15, 19, 25, 29 and classify every bar.  A raised
`IndexError` from `smma` (series shorter than a window) propagates. -/
def calculate_larsson_line (df : List Bar) : Except String (List LarssonRow) := do
  let v1 ← smma (hl2 df) 15
  let m1 ← smma (hl2 df) 19
  let m2 ← smma (hl2 df) 25
  let v2 ← smma (hl2 df) 29
  pure (mkRows df v1 m1 m2 v2)

/-! ## Signal detection (`detect_signals`, indicator.py lines 79-103) -/

/-- The signal assigned to row `i` by the loop of `detect_signals`
(indicator.py lines 92-100): `prev_color` is the colour column shifted by
one, so it is `NaN` exactly at row 0, which gets no signal; `BUY` when the
colour is orange and the previous colour is not, `SELL` when the colour is
navy and the previous colour is not, otherwise no signal. -/
def signalAt (colors : List String) (i : ℕ) : Option String :=
  if i = 0 then none
  else
    match colors[i]?, colors[i - 1]? with
    | some c, some p =>
      if c = "orange" ∧ p ≠ "orange" then some "BUY"
      else if c = "navy" ∧ p ≠ "navy" then some "SELL"
      else none
    | _, _ => none

/-- Function `detect_signals` (indicator.py lines 79-103) on the colour column: one
signal entry per row. -/
def detect_signals (colors : List String) : List (Option String) :=
  (List.range colors.length).map (signalAt colors)

/-! ## State persistence (`src/config.py`)

The JSON state document is modelled as ordered association lists with Python
dict-assignment semantics: writing to an existing key replaces its value in
place, writing to a fresh key appends it.
-/

/-- A JSON leaf value stored in the state document. -/
inductive JVal where
  | s (v : String)
  | n (v : ℚ)
deriving DecidableEq, Repr

/-- A JSON object: an ordered association list. -/
abbrev JRec := List (String × JVal)

/-- First-match lookup in an association list (Python `dict.get`). -/
def alookup {α : Type} : List (String × α) → String → Option α
  | [], _ => none
  | (k', v) :: rest, k => if k' = k then some v else alookup rest k

/-- Python dict assignment `d[k] = v`: replace in place, or append. -/
def aset {α : Type} : List (String × α) → String → α → List (String × α)
  | [], k, v => [(k, v)]
  | (k', v') :: rest, k, v =>
    if k' = k then (k, v) :: rest else (k', v') :: aset rest k v

/-- The persisted document (config.py `load_data`): the configured assets
(`(exchange, symbol)` pairs) and the per-key state mapping. -/
structure StoreData where
  assets : List (String × String)
  state : List (String × JRec)
deriving DecidableEq, Repr

/-- Function `update_asset_state` (config.py lines 77-96).  Reads the previously stored
colour via `data["state"].get(key, {}).get("color")`, writes the new record
`{color, price, last_check}` unconditionally, and returns the previous colour
exactly when one existed and differs from the new colour.  The
`datetime.now().isoformat()` timestamp is passed in as `now`. -/
def update_asset_state (data : StoreData) (exchange symbol color : String)
    (price : ℚ) (now : String) : StoreData × Option JVal :=
  let key := exchange ++ "_" ++ symbol
  let previous_color : Option JVal := alookup ((alookup data.state key).getD []) "color"
  let data' : StoreData :=
    { data with
      state := aset data.state key
        [("color", .s color), ("price", .n price), ("last_check", .s now)] }
  match previous_color with
  | some pv => if pv ≠ JVal.s color then (data', some pv) else (data', none)
  | none => (data', none)

/-! ## The check cycle (`check_indicators`, src/main.py lines 84-137) -/

/-- A notification: subject and body of a `send_email` call. -/
abbrev EmailMsg := String × String

/-- The state-update call at main.py line 118:
`update_asset_state(exchange, symbol, current_color, current_price, change_24h, history_7d)`.
It passes six positional arguments, but `config.update_asset_state`
(config.py line 77) takes four parameters, so in Python the call raises
`TypeError` before the function body runs; the model returns that error. -/
def update_asset_state_call6 (_data : StoreData) (_exchange _symbol _color : String)
    (_price _change24h : ℚ) (_history : List ℚ) : Except String (StoreData × Option JVal) :=
  .error "TypeError: update_asset_state() takes 4 positional arguments but 6 were given"

/-- The body of the per-asset `try` block of `check_indicators` (main.py lines
95-133): fetch, classify, read the colour and close of the last row, compute the
24h change and the last-30-closes history, call the state update, and build
the alert email when the returned previous colour differs. -/
def tryCheckAsset (fetch : String → String → Except String (List Bar))
    (data : StoreData) (exchange symbol : String) :
    Except String (StoreData × List EmailMsg) := do
  let df ← fetch exchange symbol
  let rows ← calculate_larsson_line df
  let lastRow ← match rows.getLast? with
    | some r => Except.ok r
    | none => Except.error "IndexError"
  let current_color := lastRow.color
  let current_price := lastRow.bar.close
  let change_24h : ℚ :=
    if 2 ≤ rows.length then
      match rows[rows.length - 2]? with
      | some prevRow => (current_price - prevRow.bar.close) / prevRow.bar.close * 100
      | none => 0
    else 0
  let history_7d := (rows.map (fun r => r.bar.close)).drop (rows.length - 30)
  let (data', prev_color) ← update_asset_state_call6 data exchange symbol current_color
      current_price change_24h history_7d
  let emails : List EmailMsg :=
    match prev_color with
    | some (JVal.s pc) =>
      if pc ≠ current_color then
        [("Market Alert: " ++ symbol ++ " on " ++ exchange ++ " Changed to " ++ current_color,
          "New: " ++ current_color ++ " Previous: " ++ pc)]
      else []
    | _ => []
  pure (data', emails)

/-- Function `check_indicators` (main.py lines 84-137): iterate the configured assets;
the failure of each asset is caught, logged as `Error processing …`, and the loop
continues with the next asset. -/
def check_indicators (fetch : String → String → Except String (List Bar))
    (data0 : StoreData) : StoreData × List String × List EmailMsg :=
  data0.assets.foldl
    (fun acc a =>
      match tryCheckAsset fetch acc.1 a.1 a.2 with
      | .ok (data', newEmails) => (data', acc.2.1, acc.2.2 ++ newEmails)
      | .error e =>
        (acc.1, acc.2.1 ++ ["Error processing " ++ a.1 ++ " " ++ a.2 ++ ": " ++ e], acc.2.2))
    (data0, [], [])

/-! ## The symbol index (`MarketIndexer`, src/webapp.py lines 72-183) -/

/-- A market catalogue entry: a Python dict with string values. -/
abbrev Entry := List (String × String)

/-- Read a field of an entry (entries built by the indexer always carry the
fields the search reads, so the default is never observable there). -/
def entryGet (m : Entry) (k : String) : String := (alookup m k).getD ""

/-- The match test of webapp.py line 167:
the query is a substring of the uppercased symbol field or of the uppercased base field. -/
def entryMatches (q : String) (m : Entry) : Bool :=
  pyIn q (pyUpper (entryGet m "symbol")) || pyIn q (pyUpper (entryGet m "base"))

/-- The sentinel returned while the index is still loading (webapp.py line 161). -/
def loadingSentinel : Entry :=
  [("symbol", "Loading markets..."), ("exchange", "System"), ("description", "Please wait")]

/-- The synthetic manual-search entry (webapp.py lines 175-181); `q` is the
already-uppercased query, to which the code applies `.upper()` once more. -/
def manualEntry (q : String) : Entry :=
  [("symbol", pyUpper q), ("exchange", "yahoo"), ("type", "manual/stock"),
   ("base", "Manual Search"), ("quote", "?")]

/-- The scan loop of webapp.py lines 164-170: append each matching entry and
stop once 20 results have been appended. -/
def searchLoop (q : String) : List Entry → ℕ → List Entry
  | [], _ => []
  | m :: rest, count =>
    if entryMatches q m then
      if 20 ≤ count + 1 then [m]
      else m :: searchLoop q rest (count + 1)
    else searchLoop q rest count

/-- The observable state of a `MarketIndexer`: the current snapshot and the
`is_loading` flag (reads and the snapshot swap are under one lock, so a
search sees one consistent pair). -/
structure MarketIndexer where
  markets : List Entry
  is_loading : Bool
deriving Repr

/-- Method `MarketIndexer.search` (webapp.py lines 154-183): uppercase the query;
empty query returns nothing; during loading with an empty snapshot return the
sentinel; otherwise scan (capped at 20) and, when fewer than 5 results were
found and the query is longer than one character, append the manual entry. -/
def MarketIndexer.search (ix : MarketIndexer) (query : String) : List Entry :=
  if pyUpper query = "" then []
  else if ix.is_loading && ix.markets.isEmpty then [loadingSentinel]
  else if decide ((searchLoop (pyUpper query) ix.markets 0).length < 5)
      && decide (1 < (pyUpper query).length) then
    searchLoop (pyUpper query) ix.markets 0 ++ [manualEntry (pyUpper query)]
  else searchLoop (pyUpper query) ix.markets 0

/-! ## Structural lemmas about the SMMA columns -/

lemma smmaRun_length (L : ℕ) (p : ℚ) (xs : List ℚ) : (smmaRun L p xs).length = xs.length := by
  induction xs generalizing p with
  | nil => rfl
  | cons x xs ih => simp [smmaRun, ih]

lemma smmaList_length (s : List ℚ) (L : ℕ) (h1 : 1 ≤ L) (h2 : L ≤ s.length) :
    (smmaList s L).length = s.length := by
  simp [smmaList, smmaRun_length]
  omega

lemma smma_ok (s : List ℚ) (L : ℕ) (h : L ≤ s.length) : smma s L = .ok (smmaList s L) := by
  simp only [smma, if_neg (by omega : ¬s.length < L)]

lemma smma_error (s : List ℚ) (L : ℕ) (h : s.length < L) : smma s L = .error "IndexError" := by
  simp only [smma, if_pos h]

/-- Outputs strictly before index `length - 1` are undefined. -/
lemma valAt_smmaList_none (s : List ℚ) (L i : ℕ) (hi : i < L - 1) :
    valAt (smmaList s L) i = none := by
  unfold valAt smmaList
  rw [List.getElem?_append_left (by simpa using hi)]
  simp [List.getElem?_replicate, hi]

/-- The output at index `length - 1` is the simple mean of the first `length`
inputs. -/
lemma valAt_smmaList_first (s : List ℚ) (L : ℕ) :
    valAt (smmaList s L) (L - 1) = some ((s.take L).sum / (L : ℚ)) := by
  unfold valAt smmaList
  rw [List.getElem?_append_right (by simp)]
  simp

/-- Every output from index `length - 1` on is defined. -/
lemma valAt_smmaList_isSome (s : List ℚ) (L i : ℕ) (h1 : 1 ≤ L) (h2 : L ≤ s.length)
    (hi1 : L - 1 ≤ i) (hi2 : i < s.length) : ∃ v, valAt (smmaList s L) i = some v := by
  unfold valAt smmaList
  rw [List.getElem?_append_right (by simpa using hi1)]
  rcases Nat.exists_eq_add_of_le hi1 with ⟨j, rfl⟩
  cases j with
  | zero => exact ⟨(s.take L).sum / (L : ℚ), by simp⟩
  | succ m =>
    have hm : m < (smmaRun L ((s.take L).sum / (L : ℚ)) (s.drop L)).length := by
      rw [smmaRun_length]
      simp only [List.length_drop]
      omega
    refine ⟨(smmaRun L ((s.take L).sum / (L : ℚ)) (s.drop L))[m], ?_⟩
    simp only [List.length_replicate, Nat.add_sub_cancel_left]
    rw [List.getElem?_cons_succ, List.getElem?_map, List.getElem?_eq_getElem hm]
    rfl

lemma smmaRun_getElem?_zero (L : ℕ) (p : ℚ) (xs : List ℚ) (h : xs ≠ []) :
    ∃ x, xs[0]? = some x ∧
      (smmaRun L p xs)[0]? = some ((p * ((L : ℚ) - 1) + x) / (L : ℚ)) := by
  cases xs with
  | nil => exact absurd rfl h
  | cons x rest => exact ⟨x, by simp, by simp [smmaRun]⟩

lemma smmaRun_getElem?_succ (L : ℕ) (xs : List ℚ) (p : ℚ) (n : ℕ) (hn : n + 1 < xs.length) :
    ∃ v x, (smmaRun L p xs)[n]? = some v ∧ xs[n + 1]? = some x ∧
      (smmaRun L p xs)[n + 1]? = some ((v * ((L : ℚ) - 1) + x) / (L : ℚ)) := by
  induction xs generalizing p n with
  | nil => simp at hn
  | cons x0 rest ih =>
    cases n with
    | zero =>
      cases rest with
      | nil => simp at hn
      | cons x1 rest' =>
        exact ⟨(p * ((L : ℚ) - 1) + x0) / (L : ℚ), x1, by simp [smmaRun], by simp,
          by simp [smmaRun]⟩
    | succ m =>
      have hm : m + 1 < rest.length := by simpa using hn
      obtain ⟨v, x, hv, hx, hsucc⟩ := ih ((p * ((L : ℚ) - 1) + x0) / (L : ℚ)) m hm
      exact ⟨v, x, by simpa [smmaRun] using hv, by simpa using hx,
        by simpa [smmaRun] using hsucc⟩

/-! ## The SMMA of a constant series is constant -/

lemma smmaRun_const (L : ℕ) (hL : (L : ℚ) ≠ 0) (c : ℚ) (n : ℕ) :
    smmaRun L c (List.replicate n c) = List.replicate n c := by
  have hv : (c * ((L : ℚ) - 1) + c) / (L : ℚ) = c := by
    rw [div_eq_iff hL]; ring
  induction n with
  | zero => rfl
  | succ m ih => simp [List.replicate_succ, smmaRun, hv, ih]

lemma smmaList_const (c : ℚ) (L n : ℕ) (h1 : 1 ≤ L) (h2 : L ≤ n) :
    smmaList (List.replicate n c) L
      = List.replicate (L - 1) none ++ some c :: List.replicate (n - L) (some c) := by
  have hL : (L : ℚ) ≠ 0 := Nat.cast_ne_zero.mpr (by omega)
  have hmean : ((List.replicate n c).take L).sum / (L : ℚ) = c := by
    rw [List.take_replicate, Nat.min_eq_left h2, List.sum_replicate, nsmul_eq_mul,
      mul_comm, mul_div_assoc, div_self hL, mul_one]
  unfold smmaList
  rw [hmean, List.drop_replicate, smmaRun_const L hL, List.map_replicate]

lemma valAt_smmaList_const (c : ℚ) (L n i : ℕ) (h1 : 1 ≤ L) (h2 : L ≤ n)
    (hi1 : L - 1 ≤ i) (hi2 : i < n) :
    valAt (smmaList (List.replicate n c) L) i = some c := by
  rw [smmaList_const c L n h1 h2]
  unfold valAt
  rw [List.getElem?_append_right (by simpa using hi1)]
  rcases Nat.exists_eq_add_of_le hi1 with ⟨j, rfl⟩
  cases j with
  | zero => simp
  | succ m =>
    simp only [List.length_replicate, Nat.add_sub_cancel_left]
    rw [List.getElem?_cons_succ, List.getElem?_replicate]
    simp only [if_pos (by omega : m < n - L)]
    rfl

/-! ## Unfolding `calculate_larsson_line` -/

lemma hl2_length (df : List Bar) : (hl2 df).length = df.length := by simp [hl2]

lemma calculate_ok (df : List Bar) (h : 29 ≤ df.length) :
    calculate_larsson_line df
      = .ok (mkRows df (smmaList (hl2 df) 15) (smmaList (hl2 df) 19)
          (smmaList (hl2 df) 25) (smmaList (hl2 df) 29)) := by
  have hlen := hl2_length df
  unfold calculate_larsson_line
  rw [smma_ok _ 15 (by omega), smma_ok _ 19 (by omega), smma_ok _ 25 (by omega),
    smma_ok _ 29 (by omega)]
  rfl

lemma calculate_error (df : List Bar) (h : df.length < 29) :
    calculate_larsson_line df = .error "IndexError" := by
  have hlen := hl2_length df
  unfold calculate_larsson_line
  by_cases h15 : (hl2 df).length < 15
  · rw [smma_error _ 15 h15]; rfl
  · rw [smma_ok _ 15 (by omega)]
    by_cases h19 : (hl2 df).length < 19
    · rw [smma_error _ 19 h19]; rfl
    · rw [smma_ok _ 19 (by omega)]
      by_cases h25 : (hl2 df).length < 25
      · rw [smma_error _ 25 h25]; rfl
      · rw [smma_ok _ 25 (by omega)]
        rw [smma_error _ 29 (by omega)]
        rfl

lemma mkRows_length (df : List Bar) (v1 m1 m2 v2 : List (Option ℚ)) :
    (mkRows df v1 m1 m2 v2).length = df.length := by simp [mkRows]

lemma mkRows_getElem? (df : List Bar) (v1 m1 m2 v2 : List (Option ℚ)) (i : ℕ)
    (hi : i < df.length) :
    (mkRows df v1 m1 m2 v2)[i]?
      = some (mkRow (df[i]?.getD default) (valAt v1 i) (valAt m1 i) (valAt m2 i)
          (valAt v2 i)) := by
  unfold mkRows
  rw [List.getElem?_map, List.getElem?_range hi]
  rfl

/-! ## Boolean properties of a classified row -/

/-- All four smoothed values of the row are defined. -/
def allDefined (r : LarssonRow) : Bool :=
  r.v1.isSome && r.m1.isSome && r.m2.isSome && r.v2.isSome

/-- Exactly one of the three pattern flags of the row is set. -/
def exactlyOneFlag (r : LarssonRow) : Bool :=
  (r.p1 && !r.p2 && !r.p3) || (!r.p1 && r.p2 && !r.p3) || (!r.p1 && !r.p2 && r.p3)

/-- The flags are computed from the smoothed values by the formulas of the
indicator: `p2 = ((v1 < m1) != (v1 < v2)) | ((m2 < v2) != (v1 < v2))`,
`p3 = (~p2) & (v1 < v2)`, `p1 = (~p2) & (~p3)`. -/
def flagsFromValues (r : LarssonRow) : Bool :=
  (r.p2 == ((optLt r.v1 r.m1 != optLt r.v1 r.v2) || (optLt r.m2 r.v2 != optLt r.v1 r.v2)))
    && (r.p3 == (!r.p2 && optLt r.v1 r.v2)) && (r.p1 == (!r.p2 && !r.p3))

/-- The colour is orange, silver or navy according to which flag is set. -/
def trendMatchesFlags (r : LarssonRow) : Bool :=
  ((r.color == "orange") == r.p1) && ((r.color == "silver") == r.p2)
    && ((r.color == "navy") == r.p3)

lemma mkRow_exactlyOneFlag (b : Bar) (a m c d : Option ℚ) :
    exactlyOneFlag (mkRow b a m c d) = true := by
  simp only [mkRow, exactlyOneFlag]
  cases optLt a m != optLt a d || (optLt c d != optLt a d) <;> cases optLt a d <;> rfl

lemma mkRow_flagsFromValues (b : Bar) (a m c d : Option ℚ) :
    flagsFromValues (mkRow b a m c d) = true := by
  simp only [mkRow, flagsFromValues]
  cases optLt a m != optLt a d || (optLt c d != optLt a d) <;> cases optLt a d <;> rfl

lemma get_color_trend (q2 d : Bool) :
    (((get_color (!q2 && !(!q2 && d)) q2 (!q2 && d) == "orange") == (!q2 && !(!q2 && d)))
      && ((get_color (!q2 && !(!q2 && d)) q2 (!q2 && d) == "silver") == q2)
      && ((get_color (!q2 && !(!q2 && d)) q2 (!q2 && d) == "navy") == (!q2 && d))) = true := by
  cases q2 <;> cases d <;> rfl

lemma mkRow_trendMatchesFlags (b : Bar) (a m c d : Option ℚ) :
    trendMatchesFlags (mkRow b a m c d) = true :=
  get_color_trend (optLt a m != optLt a d || (optLt c d != optLt a d)) (optLt a d)

/-! ## Concrete constant series used as witnesses -/

/-- A 29-bar constant series: every bar has high 2, low 0, close 1. -/
def df29 : List Bar := List.replicate 29 ⟨2, 0, 1⟩

/-- The classification rows of `df29`. -/
def rows29 : List LarssonRow :=
  mkRows df29 (smmaList (hl2 df29) 15) (smmaList (hl2 df29) 19)
    (smmaList (hl2 df29) 25) (smmaList (hl2 df29) 29)

/-- A 30-bar constant series. -/
def df30 : List Bar := List.replicate 30 ⟨2, 0, 1⟩

/-- The classification rows of `df30`. -/
def rows30 : List LarssonRow :=
  mkRows df30 (smmaList (hl2 df30) 15) (smmaList (hl2 df30) 19)
    (smmaList (hl2 df30) 25) (smmaList (hl2 df30) 29)

/-! ## Claim C1 -/

/-- C1: at every bar at which all four SMMAs (windows 15, 19, 25, 29) are
defined — indices 28 and beyond of a successfully classified series — the
classification carries exactly one true flag among `p1` (bullish), `p2`
(transition), `p3` (bearish); the flags are computed by
`transition = (v1<m1) XOR (v1<v2) OR (m2<v2) XOR (v1<v2)`,
`bearish = NOT transition AND v1<v2`, `bullish = NOT transition AND NOT
bearish`; and the resulting colour (orange = Bullish, silver = Transition,
navy = Bearish) agrees with the set flag. -/
theorem classify_exactly_one_flag (df : List Bar) (rows : List LarssonRow)
    (hok : calculate_larsson_line df = .ok rows) (i : ℕ) (h1 : 28 ≤ i) (h2 : i < df.length) :
    rows[i]?.isSome = true
      ∧ rows[i]?.all allDefined = true
      ∧ rows[i]?.all flagsFromValues = true
      ∧ rows[i]?.all exactlyOneFlag = true
      ∧ rows[i]?.all trendMatchesFlags = true := by
  have h29 : 29 ≤ df.length := by omega
  rw [calculate_ok df h29] at hok
  injection hok with hrows
  subst hrows
  rw [mkRows_getElem? df _ _ _ _ i h2]
  have hlen := hl2_length df
  obtain ⟨a, ha⟩ := valAt_smmaList_isSome (hl2 df) 15 i (by omega) (by omega) (by omega)
    (by omega)
  obtain ⟨m, hm⟩ := valAt_smmaList_isSome (hl2 df) 19 i (by omega) (by omega) (by omega)
    (by omega)
  obtain ⟨c, hc⟩ := valAt_smmaList_isSome (hl2 df) 25 i (by omega) (by omega) (by omega)
    (by omega)
  obtain ⟨d, hd⟩ := valAt_smmaList_isSome (hl2 df) 29 i (by omega) (by omega) (by omega)
    (by omega)
  refine ⟨rfl, ?_, ?_, ?_, ?_⟩
  · show allDefined (mkRow _ _ _ _ _) = true
    unfold allDefined
    rw [ha, hm, hc, hd]
    rfl
  · exact mkRow_flagsFromValues _ _ _ _ _
  · exact mkRow_exactlyOneFlag _ _ _ _ _
  · exact mkRow_trendMatchesFlags _ _ _ _ _

/-- Witness for C1 at the 29-bar constant series, bar 28. -/
theorem classify_exactly_one_flag_witness :
    rows29[28]?.isSome = true
      ∧ rows29[28]?.all allDefined = true
      ∧ rows29[28]?.all flagsFromValues = true
      ∧ rows29[28]?.all exactlyOneFlag = true
      ∧ rows29[28]?.all trendMatchesFlags = true :=
  classify_exactly_one_flag df29 rows29 (calculate_ok df29 (by simp [df29])) 28
    (by norm_num) (by simp [df29])

/-! ## Claim C4 -/

/-- C4: for every window `L ≥ 1` and every input series holding at least `L`
entries, the first defined SMMA output, at index `L - 1`, is the arithmetic
mean of the first `L` inputs, and every subsequent output at an index
`L ≤ i < length` is `(output(i-1) * (L-1) + input(i)) / L`. -/
theorem smma_first_mean_and_recurrence (s : List ℚ) (L : ℕ) (h1 : 1 ≤ L)
    (h2 : L ≤ s.length) :
    smma s L = .ok (smmaList s L)
      ∧ valAt (smmaList s L) (L - 1) = some ((s.take L).sum / (L : ℚ))
      ∧ ∀ i : ℕ, L ≤ i → i < s.length →
          ∃ p x, valAt (smmaList s L) (i - 1) = some p ∧ s[i]? = some x ∧
            valAt (smmaList s L) i = some ((p * ((L : ℚ) - 1) + x) / (L : ℚ)) := by
  refine ⟨smma_ok s L h2, valAt_smmaList_first s L, ?_⟩
  intro i hiL hiLen
  rcases Nat.eq_or_lt_of_le hiL with heq | hlt
  · subst heq
    have hne : s.drop L ≠ [] := by
      intro hnil
      have := congrArg List.length hnil
      simp only [List.length_drop, List.length_nil] at this
      omega
    obtain ⟨x, hx0, hxr⟩ := smmaRun_getElem?_zero L ((s.take L).sum / (L : ℚ)) (s.drop L) hne
    have hxs : s[L]? = some x := by
      have hd := List.getElem?_drop s L 0
      rw [hx0] at hd
      rw [Nat.add_zero] at hd
      exact hd.symm
    refine ⟨(s.take L).sum / (L : ℚ), x, valAt_smmaList_first s L, hxs, ?_⟩
    unfold valAt smmaList
    rw [List.getElem?_append_right (by simp only [List.length_replicate]; omega)]
    simp only [List.length_replicate]
    rw [show L - (L - 1) = 0 + 1 by omega, List.getElem?_cons_succ, List.getElem?_map, hxr]
    rfl
  · have hn : (i - L - 1) + 1 < (s.drop L).length := by
      simp only [List.length_drop]
      omega
    obtain ⟨v, x, hv, hx, hsucc⟩ :=
      smmaRun_getElem?_succ L (s.drop L) ((s.take L).sum / (L : ℚ)) (i - L - 1) hn
    rw [show i - L - 1 + 1 = i - L by omega] at hx hsucc
    have hxs : s[i]? = some x := by
      have hd := List.getElem?_drop s L (i - L)
      rw [hx] at hd
      rw [show L + (i - L) = i by omega] at hd
      exact hd.symm
    refine ⟨v, x, ?_, hxs, ?_⟩
    · unfold valAt smmaList
      rw [List.getElem?_append_right (by simp only [List.length_replicate]; omega)]
      simp only [List.length_replicate]
      rw [show i - 1 - (L - 1) = (i - L - 1) + 1 by omega, List.getElem?_cons_succ,
        List.getElem?_map, hv]
      rfl
    · unfold valAt smmaList
      rw [List.getElem?_append_right (by simp only [List.length_replicate]; omega)]
      simp only [List.length_replicate]
      rw [show i - (L - 1) = (i - L) + 1 by omega, List.getElem?_cons_succ,
        List.getElem?_map, hsucc]
      rfl

/-- Witness for C4 at the series `[1, 2, 3]` with window 2. -/
theorem smma_first_mean_and_recurrence_witness :
    smma [1, 2, 3] 2 = .ok (smmaList [1, 2, 3] 2)
      ∧ valAt (smmaList [1, 2, 3] 2) (2 - 1)
          = some ((([1, 2, 3] : List ℚ).take 2).sum / ((2 : ℕ) : ℚ))
      ∧ ∀ i : ℕ, 2 ≤ i → i < ([1, 2, 3] : List ℚ).length →
          ∃ p x, valAt (smmaList [1, 2, 3] 2) (i - 1) = some p
            ∧ ([1, 2, 3] : List ℚ)[i]? = some x
            ∧ valAt (smmaList [1, 2, 3] 2) i
                = some ((p * (((2 : ℕ) : ℚ) - 1) + x) / ((2 : ℕ) : ℚ)) :=
  smma_first_mean_and_recurrence [1, 2, 3] 2 (by norm_num) (by norm_num)

/-! ## Claim C5 -/

/-- C5 (amended): classification fails — with the `IndexError` raised inside
`smma`, there is no dedicated insufficient-data error — exactly when the
series is shorter than the largest window, 29; series of length 29 or 30 are
classified without error. -/
theorem calculate_fails_iff (df : List Bar) :
    calculate_larsson_line df = .error "IndexError" ↔ df.length < 29 := by
  constructor
  · intro h
    by_contra hge
    rw [calculate_ok df (by omega)] at h
    simp at h
  · exact calculate_error df

/-- C5 counterexample: a series of length 30 — which does not exceed 30 — is
classified successfully instead of failing. -/
theorem length30_series_classifies :
    df30.length = 30 ∧ calculate_larsson_line df30 = .ok rows30 :=
  ⟨by simp [df30], calculate_ok df30 (by simp [df30])⟩

/-! ## Claim C6 -/

/-- C6 (amended): SMMA outputs before index `length - 1` are undefined
(`none`); but the classification engine does not omit or mark the bars that
lack them: every bar receives a colour, comparisons against undefined values
evaluating to false, so every bar before index 14 — where no SMMA is defined
at all — is coloured orange (Bullish). -/
theorem early_bars_all_colored (df : List Bar) (rows : List LarssonRow)
    (hok : calculate_larsson_line df = .ok rows) (i : ℕ) (hi : i < 14) :
    (∀ (s : List ℚ) (L j : ℕ), j < L - 1 → valAt (smmaList s L) j = none)
      ∧ rows[i]?.map (fun r => r.v1) = some none
      ∧ rows[i]?.map (fun r => r.m1) = some none
      ∧ rows[i]?.map (fun r => r.m2) = some none
      ∧ rows[i]?.map (fun r => r.v2) = some none
      ∧ rows[i]?.map (fun r => r.color) = some "orange" := by
  have h29 : 29 ≤ df.length := by
    by_contra h
    rw [calculate_error df (by omega)] at hok
    simp at hok
  rw [calculate_ok df h29] at hok
  injection hok with hrows
  subst hrows
  rw [mkRows_getElem? df _ _ _ _ i (by omega)]
  rw [valAt_smmaList_none (hl2 df) 15 i (by omega), valAt_smmaList_none (hl2 df) 19 i
    (by omega), valAt_smmaList_none (hl2 df) 25 i (by omega),
    valAt_smmaList_none (hl2 df) 29 i (by omega)]
  exact ⟨fun s L j hj => valAt_smmaList_none s L j hj, rfl, rfl, rfl, rfl, rfl⟩

/-- C6 counterexample: bar 0 of a 29-bar series has all four smoothed values
undefined, yet is assigned the Trend colour orange. -/
theorem bar_without_smma_gets_trend :
    calculate_larsson_line df29 = .ok rows29
      ∧ rows29[0]?.map (fun r => r.v1) = some none
      ∧ rows29[0]?.map (fun r => r.v2) = some none
      ∧ rows29[0]?.map (fun r => r.color) = some "orange" := by
  refine ⟨calculate_ok df29 (by simp [df29]), ?_, ?_, ?_⟩ <;>
  · show ((mkRows df29 (smmaList (hl2 df29) 15) (smmaList (hl2 df29) 19)
      (smmaList (hl2 df29) 25) (smmaList (hl2 df29) 29))[0]?.map _) = _
    rw [mkRows_getElem? df29 _ _ _ _ 0 (by simp [df29])]
    rw [valAt_smmaList_none (hl2 df29) 15 0 (by norm_num),
      valAt_smmaList_none (hl2 df29) 19 0 (by norm_num),
      valAt_smmaList_none (hl2 df29) 25 0 (by norm_num),
      valAt_smmaList_none (hl2 df29) 29 0 (by norm_num)]
    rfl

/-- Witness for C6 at the 29-bar constant series, bar 0. -/
theorem early_bars_all_colored_witness :
    (∀ (s : List ℚ) (L j : ℕ), j < L - 1 → valAt (smmaList s L) j = none)
      ∧ rows29[0]?.map (fun r => r.v1) = some none
      ∧ rows29[0]?.map (fun r => r.m1) = some none
      ∧ rows29[0]?.map (fun r => r.m2) = some none
      ∧ rows29[0]?.map (fun r => r.v2) = some none
      ∧ rows29[0]?.map (fun r => r.color) = some "orange" :=
  early_bars_all_colored df29 rows29 (calculate_ok df29 (by simp [df29])) 0 (by norm_num)

/-! ## Claim C7 -/

lemma detect_signals_getElem?_lt (cs : List String) (j : ℕ) (hj : j < cs.length) :
    (detect_signals cs)[j]? = some (signalAt cs j) := by
  unfold detect_signals
  rw [List.getElem?_map, List.getElem?_range hj]
  rfl

lemma detect_signals_getElem?_ge (cs : List String) (j : ℕ) (hj : cs.length ≤ j) :
    (detect_signals cs)[j]? = none := by
  unfold detect_signals
  exact List.getElem?_eq_none (by simpa using hj)

/-- C7: the signal column has `BUY` at index `i` exactly when the colour at
`i` is orange and the colour at `i - 1` is defined and not orange, and `SELL`
at index `i` exactly when the colour at `i` is navy and the colour at `i - 1`
is defined and not navy; the first row never carries a signal, and a constant
colour sequence carries no signal anywhere. -/
theorem detect_signals_edge_spec (cs : List String) (i : ℕ) :
    ((detect_signals cs)[i]? = some (some "BUY") ↔
      1 ≤ i ∧ cs[i]? = some "orange" ∧ ∃ p, cs[i - 1]? = some p ∧ p ≠ "orange")
      ∧ ((detect_signals cs)[i]? = some (some "SELL") ↔
        1 ≤ i ∧ cs[i]? = some "navy" ∧ ∃ p, cs[i - 1]? = some p ∧ p ≠ "navy")
      ∧ (cs ≠ [] → (detect_signals cs)[0]? = some none)
      ∧ (∀ (c : String) (n j : ℕ),
          (detect_signals (List.replicate n c))[j]?.getD none = none) := by
  refine ⟨?_, ?_, ?_, ?_⟩
  · constructor
    · intro h
      by_cases hlen : i < cs.length
      · rw [detect_signals_getElem?_lt cs i hlen] at h
        have hf := Option.some.inj h
        unfold signalAt at hf
        by_cases hi0 : i = 0
        · rw [if_pos hi0] at hf
          cases hf
        · rw [if_neg hi0] at hf
          have hc := List.getElem?_eq_getElem hlen
          have hp := List.getElem?_eq_getElem (show i - 1 < cs.length by omega)
          rw [hc, hp] at hf
          simp only [] at hf
          by_cases h1 : cs[i] = "orange" ∧ cs[i - 1] ≠ "orange"
          · exact ⟨by omega, by rw [hc, h1.1], cs[i - 1], hp, h1.2⟩
          · rw [if_neg h1] at hf
            by_cases h2 : cs[i] = "navy" ∧ cs[i - 1] ≠ "navy"
            · rw [if_pos h2] at hf
              exact absurd (Option.some.inj hf) (by decide)
            · rw [if_neg h2] at hf
              cases hf
      · rw [detect_signals_getElem?_ge cs i (by omega)] at h
        cases h
    · rintro ⟨hi1, hc, p, hp, hne⟩
      have hlen : i < cs.length := by
        by_contra h
        rw [List.getElem?_eq_none (by omega)] at hc
        cases hc
      rw [detect_signals_getElem?_lt cs i hlen]
      suffices hs : signalAt cs i = some "BUY" by rw [hs]
      unfold signalAt
      rw [if_neg (by omega), hc, hp]
      exact if_pos ⟨rfl, hne⟩
  · constructor
    · intro h
      by_cases hlen : i < cs.length
      · rw [detect_signals_getElem?_lt cs i hlen] at h
        have hf := Option.some.inj h
        unfold signalAt at hf
        by_cases hi0 : i = 0
        · rw [if_pos hi0] at hf
          cases hf
        · rw [if_neg hi0] at hf
          have hc := List.getElem?_eq_getElem hlen
          have hp := List.getElem?_eq_getElem (show i - 1 < cs.length by omega)
          rw [hc, hp] at hf
          simp only [] at hf
          by_cases h1 : cs[i] = "orange" ∧ cs[i - 1] ≠ "orange"
          · rw [if_pos h1] at hf
            exact absurd (Option.some.inj hf) (by decide)
          · rw [if_neg h1] at hf
            by_cases h2 : cs[i] = "navy" ∧ cs[i - 1] ≠ "navy"
            · exact ⟨by omega, by rw [hc, h2.1], cs[i - 1], hp, h2.2⟩
            · rw [if_neg h2] at hf
              cases hf
      · rw [detect_signals_getElem?_ge cs i (by omega)] at h
        cases h
    · rintro ⟨hi1, hc, p, hp, hne⟩
      have hlen : i < cs.length := by
        by_contra h
        rw [List.getElem?_eq_none (by omega)] at hc
        cases hc
      rw [detect_signals_getElem?_lt cs i hlen]
      suffices hs : signalAt cs i = some "SELL" by rw [hs]
      unfold signalAt
      rw [if_neg (by omega), hc, hp]
      exact (if_neg (fun hcon => absurd hcon.1 (by decide))).trans (if_pos ⟨rfl, hne⟩)
  · intro hne
    have hlen : 0 < cs.length := List.length_pos.mpr hne
    rw [detect_signals_getElem?_lt cs 0 hlen]
    rfl
  · intro c n j
    by_cases hj : j < n
    · rw [detect_signals_getElem?_lt _ j (by simpa using hj)]
      suffices hs : signalAt (List.replicate n c) j = none by rw [hs]; rfl
      unfold signalAt
      by_cases hj0 : j = 0
      · rw [if_pos hj0]
      · rw [if_neg hj0]
        rw [List.getElem?_replicate, if_pos hj, List.getElem?_replicate,
          if_pos (show j - 1 < n by omega)]
        exact (if_neg (fun hcon => hcon.2 hcon.1)).trans
          (if_neg (fun hcon => hcon.2 hcon.1))
    · rw [detect_signals_getElem?_ge _ j (by simpa using Nat.le_of_not_lt hj)]
      rfl

/-- Witness for C7: in the sequence navy, orange a BUY fires at index 1 and
the first row carries no signal. -/
theorem detect_signals_edge_spec_witness :
    (detect_signals ["navy", "orange"])[1]? = some (some "BUY")
      ∧ (detect_signals ["navy", "orange"])[0]? = some none :=
  ⟨(detect_signals_edge_spec ["navy", "orange"] 1).1.mpr
      ⟨by norm_num, by simp, "navy", by simp, by decide⟩,
    (detect_signals_edge_spec ["navy", "orange"] 1).2.2.1 (by simp)⟩

/-! ## Claims C2 and C8: the persisted state -/

lemma alookup_aset {α : Type} (l : List (String × α)) (k : String) (v : α) :
    alookup (aset l k v) k = some v := by
  induction l with
  | nil => simp [aset, alookup]
  | cons kv rest ih =>
    obtain ⟨k', v'⟩ := kv
    by_cases h : k' = k
    · simp [aset, alookup, h]
    · simp only [aset, if_neg h, alookup]
      exact ih

/-- Lemma: `update_asset_state` in closed form: the new record is written under the
key unconditionally, and the returned value is the previously stored colour
when one exists and differs. -/
lemma update_asset_state_eq (data : StoreData) (exchange symbol color : String)
    (price : ℚ) (now : String) :
    update_asset_state data exchange symbol color price now
      = (⟨data.assets,
          aset data.state (exchange ++ "_" ++ symbol)
            [("color", .s color), ("price", .n price), ("last_check", .s now)]⟩,
        match alookup ((alookup data.state (exchange ++ "_" ++ symbol)).getD []) "color" with
        | some pv => if pv ≠ JVal.s color then some pv else none
        | none => none) := by
  simp only [update_asset_state]
  cases alookup ((alookup data.state (exchange ++ "_" ++ symbol)).getD []) "color" with
  | none => rfl
  | some pv =>
    dsimp only
    by_cases hne : pv ≠ JVal.s color
    · rw [if_pos hne, if_pos hne]
    · rw [if_neg hne, if_neg hne]

/-- C2: the update writes the record `{color, price, last_check}` for the key
unconditionally; it returns a previous colour (the transition indication)
exactly when a colour was stored for the key before and differs from the new
one; in particular a first-ever call, or a call with an unchanged colour,
returns nothing. -/
theorem update_asset_state_event_iff (data : StoreData) (exchange symbol color : String)
    (price : ℚ) (now : String) :
    alookup (update_asset_state data exchange symbol color price now).1.state
        (exchange ++ "_" ++ symbol)
      = some [("color", .s color), ("price", .n price), ("last_check", .s now)]
      ∧ (∀ pv, (update_asset_state data exchange symbol color price now).2 = some pv ↔
          alookup ((alookup data.state (exchange ++ "_" ++ symbol)).getD []) "color"
              = some pv
            ∧ pv ≠ JVal.s color)
      ∧ ((update_asset_state data exchange symbol color price now).2 = none ↔
          alookup ((alookup data.state (exchange ++ "_" ++ symbol)).getD []) "color" = none
            ∨ alookup ((alookup data.state (exchange ++ "_" ++ symbol)).getD []) "color"
                = some (JVal.s color))
      ∧ (alookup data.state (exchange ++ "_" ++ symbol) = none →
          (update_asset_state data exchange symbol color price now).2 = none) := by
  rw [update_asset_state_eq]
  refine ⟨alookup_aset data.state _ _, ?_, ?_, ?_⟩
  · intro pv
    rcases h : alookup ((alookup data.state (exchange ++ "_" ++ symbol)).getD []) "color"
      with _ | pv'
    · simp
    · dsimp only
      by_cases hne : pv' = JVal.s color
      · subst hne
        rw [if_neg (by simp)]
        constructor
        · intro hs
          cases hs
        · rintro ⟨h1, h2⟩
          exact absurd (Option.some.inj h1).symm h2
      · rw [if_pos (show pv' ≠ JVal.s color from hne)]
        constructor
        · intro hs
          exact ⟨hs, (Option.some.inj hs) ▸ hne⟩
        · exact fun hand => hand.1
  · rcases h : alookup ((alookup data.state (exchange ++ "_" ++ symbol)).getD []) "color"
      with _ | pv'
    · simp
    · dsimp only
      by_cases hne : pv' = JVal.s color
      · subst hne
        rw [if_neg (by simp)]
        simp
      · rw [if_pos (show pv' ≠ JVal.s color from hne)]
        constructor
        · intro hs
          cases hs
        · rintro (h1 | h2)
          · cases h1
          · exact absurd (Option.some.inj h2) hne
  · intro h0
    rw [h0]
    rfl

/-- Witness for C2: on an empty store, the first call stores the record and
returns no transition indication. -/
theorem update_asset_state_event_iff_witness :
    alookup (update_asset_state ⟨[], []⟩ "binance" "BTC/USDT" "orange" 1 "t0").1.state
        ("binance" ++ "_" ++ "BTC/USDT")
      = some [("color", .s "orange"), ("price", .n 1), ("last_check", .s "t0")]
      ∧ (update_asset_state ⟨[], []⟩ "binance" "BTC/USDT" "orange" 1 "t0").2 = none :=
  ⟨(update_asset_state_event_iff ⟨[], []⟩ "binance" "BTC/USDT" "orange" 1 "t0").1,
    (update_asset_state_event_iff ⟨[], []⟩ "binance" "BTC/USDT" "orange" 1 "t0").2.2.2 rfl⟩

/-- C8 (code bug): after an update, the record persisted by
`config.update_asset_state` holds exactly the fields `color`, `price` and
`last_check`: it has no 24h-change field and no rolling-closes field — main.py
line 118 passes `change_24h` and `history_7d` to this four-parameter function
(a call that raises `TypeError`), and webapp.py lines 65-66 read the two
missing fields. -/
theorem update_asset_state_persists_three_fields_only :
    alookup (update_asset_state ⟨[("binance", "BTC/USDT")], []⟩ "binance" "BTC/USDT"
        "orange" 50000 "2026-01-01T00:00:00").1.state "binance_BTC/USDT"
      = some [("color", .s "orange"), ("price", .n 50000),
          ("last_check", .s "2026-01-01T00:00:00")]
      ∧ ((alookup (update_asset_state ⟨[("binance", "BTC/USDT")], []⟩ "binance" "BTC/USDT"
            "orange" 50000 "2026-01-01T00:00:00").1.state "binance_BTC/USDT").getD []).map
            Prod.fst
        = ["color", "price", "last_check"]
      ∧ alookup ((alookup (update_asset_state ⟨[("binance", "BTC/USDT")], []⟩ "binance"
            "BTC/USDT" "orange" 50000 "2026-01-01T00:00:00").1.state
            "binance_BTC/USDT").getD []) "change_24h"
        = none
      ∧ alookup ((alookup (update_asset_state ⟨[("binance", "BTC/USDT")], []⟩ "binance"
            "BTC/USDT" "orange" 50000 "2026-01-01T00:00:00").1.state
            "binance_BTC/USDT").getD []) "history_7d"
        = none :=
  ⟨rfl, rfl, rfl, rfl⟩

/-! ## Claim C3: a full check cycle over three instruments -/

/-- Three configured instruments with an empty state store. -/
def store3 : StoreData :=
  ⟨[("binance", "BTC/USDT"), ("kraken", "ETH/USD"), ("yahoo", "NVDA")], []⟩

/-- A provider map on which fetching the second instrument always fails and
the other two return a valid 30-bar series. -/
def fetch3 : String → String → Except String (List Bar) := fun ex _sym =>
  if ex = "kraken" then .error "network down" else .ok df30

/-- C3 (code bug): the cycle over three instruments, of which the second
always fails to fetch, completes without aborting and logs one caught error
per instrument — but it persists no state at all: the state of instruments
one and three is untouched, because the state-update call itself raises
`TypeError` (main.py line 118 passes six arguments to the four-parameter
`config.update_asset_state`), so even the successfully fetched and classified
instruments end in the per-asset exception handler. -/
theorem check_cycle_updates_no_state :
    (check_indicators fetch3 store3).1 = store3
      ∧ alookup (check_indicators fetch3 store3).1.state "binance_BTC/USDT" = none
      ∧ alookup (check_indicators fetch3 store3).1.state "yahoo_NVDA" = none
      ∧ (check_indicators fetch3 store3).2.1 =
        ["Error processing binance BTC/USDT: TypeError: update_asset_state() takes 4 positional arguments but 6 were given",
          "Error processing kraken ETH/USD: network down",
          "Error processing yahoo NVDA: TypeError: update_asset_state() takes 4 positional arguments but 6 were given"]
      ∧ (check_indicators fetch3 store3).2.2 = [] :=
  ⟨rfl, rfl, rfl, rfl, rfl⟩

/-! ## Claims C9 and C10: the symbol search -/

lemma char_toUpper_idem (c : Char) : c.toUpper.toUpper = c.toUpper := by
  unfold Char.toUpper
  by_cases h : c.toNat ≥ 97 ∧ c.toNat ≤ 122
  · rw [if_pos h]
    have hval : (c.toNat - 32).isValidChar := by
      left
      omega
    have htn : (Char.ofNat (c.toNat - 32)).toNat = c.toNat - 32 := by
      rw [Char.ofNat, dif_pos hval]
      simp [Char.ofNatAux, Char.toNat, UInt32.toNat, BitVec.toNat_ofNatLt]
    rw [if_neg]
    rw [htn]
    omega
  · rw [if_neg h, if_neg h]

lemma pyUpper_eq_empty_iff (s : String) : pyUpper s = "" ↔ s = "" := by
  cases s with
  | mk d =>
    constructor
    · intro h
      have hd : d.map Char.toUpper = [] := congrArg String.data h
      rw [List.map_eq_nil_iff] at hd
      subst hd
      rfl
    · intro h
      rw [h]
      rfl

lemma pyUpper_length (s : String) : (pyUpper s).length = s.length := by
  cases s with
  | mk d => simp [pyUpper, String.length]

lemma pyUpper_idem (s : String) : pyUpper (pyUpper s) = pyUpper s := by
  cases s with
  | mk d =>
    simp only [pyUpper, List.map_map]
    congr 1
    have hf : Char.toUpper ∘ Char.toUpper = Char.toUpper := by
      funext c
      exact char_toUpper_idem c
    rw [hf]

lemma searchLoop_length_le (q : String) (ms : List Entry) (c : ℕ) (hc : c < 20) :
    (searchLoop q ms c).length ≤ 20 - c := by
  induction ms generalizing c with
  | nil => simp [searchLoop]
  | cons m rest ih =>
    show (if entryMatches q m then
        (if 20 ≤ c + 1 then [m] else m :: searchLoop q rest (c + 1))
      else searchLoop q rest c).length ≤ 20 - c
    by_cases hm : entryMatches q m
    · rw [if_pos hm]
      by_cases h20 : 20 ≤ c + 1
      · rw [if_pos h20]
        simp only [List.length_cons, List.length_nil]
        omega
      · rw [if_neg h20]
        simp only [List.length_cons]
        have := ih (c + 1) (by omega)
        omega
    · rw [if_neg hm]
      exact ih c hc

lemma searchLoop_eq_filter (q : String) (ms : List Entry) (c : ℕ)
    (h : (ms.filter (entryMatches q)).length + c < 20) :
    searchLoop q ms c = ms.filter (entryMatches q) := by
  induction ms generalizing c with
  | nil => rfl
  | cons m rest ih =>
    show (if entryMatches q m then
        (if 20 ≤ c + 1 then [m] else m :: searchLoop q rest (c + 1))
      else searchLoop q rest c) = _
    by_cases hm : entryMatches q m
    · rw [List.filter_cons_of_pos hm] at h ⊢
      simp only [List.length_cons] at h
      rw [if_pos hm, if_neg (by omega : ¬20 ≤ c + 1)]
      rw [ih (c + 1) (by omega)]
    · rw [List.filter_cons_of_neg (by simpa using hm)] at h ⊢
      rw [if_neg hm]
      exact ih c h

/-- C9: searching the empty query returns the empty sequence; a search never
returns more than 20 entries; a search with a non-empty query while the index
is loading and the snapshot is empty returns exactly the one loading
sentinel.  (An empty query returns `[]` even while loading: the empty-query
test runs first.) -/
theorem market_search_caps (ix : MarketIndexer) (query : String) :
    ix.search "" = []
      ∧ (ix.search query).length ≤ 20
      ∧ (ix.is_loading = true → ix.markets = [] → query ≠ "" →
          ix.search query = [loadingSentinel]) := by
  refine ⟨?_, ?_, ?_⟩
  · show MarketIndexer.search ix "" = []
    unfold MarketIndexer.search
    rw [if_pos (show pyUpper "" = "" from rfl)]
  · show (MarketIndexer.search ix query).length ≤ 20
    unfold MarketIndexer.search
    by_cases h1 : pyUpper query = ""
    · rw [if_pos h1]
      simp
    · rw [if_neg h1]
      by_cases h2 : (ix.is_loading && ix.markets.isEmpty) = true
      · rw [if_pos h2]
        simp
      · rw [if_neg h2]
        have hloop := searchLoop_length_le (pyUpper query) ix.markets 0 (by omega)
        by_cases h3 : (decide ((searchLoop (pyUpper query) ix.markets 0).length < 5)
            && decide (1 < (pyUpper query).length)) = true
        · rw [if_pos h3]
          rw [Bool.and_eq_true, decide_eq_true_eq, decide_eq_true_eq] at h3
          simp only [List.length_append, List.length_cons, List.length_nil]
          omega
        · rw [if_neg h3]
          omega
  · intro hl hm hq
    show MarketIndexer.search ix query = [loadingSentinel]
    unfold MarketIndexer.search
    rw [if_neg (fun hcon => hq ((pyUpper_eq_empty_iff query).mp hcon))]
    rw [if_pos (by rw [hl, hm]; rfl)]

/-- A loading indexer with an empty snapshot. -/
def ixLoading : MarketIndexer := ⟨[], true⟩

/-- Witness for C9: searching a loading, empty index returns the sentinel. -/
theorem market_search_caps_witness :
    ixLoading.search "BTC" = [loadingSentinel] :=
  (market_search_caps ixLoading "BTC").2.2 rfl rfl (by decide)

/-- C10: when the query is longer than one character and fewer than five
catalogue entries match it, the result is the matching entries followed by a
synthetic manual entry with exchange `yahoo`, symbol the upper-cased query
and base `Manual Search`; with no matching entries at all the search returns
exactly that synthetic entry. -/
theorem market_search_manual_fallback (ix : MarketIndexer) (query : String)
    (hload : ¬(ix.is_loading = true ∧ ix.markets = []))
    (hq : 1 < query.length)
    (hfew : (ix.markets.filter (entryMatches (pyUpper query))).length < 5) :
    ix.search query
        = ix.markets.filter (entryMatches (pyUpper query)) ++ [manualEntry (pyUpper query)]
      ∧ entryGet (manualEntry (pyUpper query)) "exchange" = "yahoo"
      ∧ entryGet (manualEntry (pyUpper query)) "symbol" = pyUpper query
      ∧ entryGet (manualEntry (pyUpper query)) "base" = "Manual Search"
      ∧ (ix.markets.filter (entryMatches (pyUpper query)) = [] →
          ix.search query = [manualEntry (pyUpper query)]) := by
  have hq' : query ≠ "" := by
    intro h
    rw [h] at hq
    simp [String.length] at hq
  have hqu : pyUpper query ≠ "" := fun h => hq' ((pyUpper_eq_empty_iff query).mp h)
  have hcond2 : ¬(ix.is_loading && ix.markets.isEmpty) = true := by
    intro hcon
    rw [Bool.and_eq_true] at hcon
    exact hload ⟨hcon.1, by simpa [List.isEmpty_iff] using hcon.2⟩
  have hloop : searchLoop (pyUpper query) ix.markets 0
      = ix.markets.filter (entryMatches (pyUpper query)) :=
    searchLoop_eq_filter _ _ 0 (by omega)
  have hmain : MarketIndexer.search ix query
      = ix.markets.filter (entryMatches (pyUpper query)) ++ [manualEntry (pyUpper query)] := by
    unfold MarketIndexer.search
    rw [if_neg hqu, if_neg hcond2, hloop]
    rw [if_pos (by
      rw [Bool.and_eq_true, decide_eq_true_eq, decide_eq_true_eq]
      exact ⟨hfew, by rw [pyUpper_length]; exact hq⟩)]
  refine ⟨hmain, rfl, ?_, rfl, ?_⟩
  · show pyUpper (pyUpper query) = pyUpper query
    exact pyUpper_idem query
  · intro hemp
    rw [hmain, hemp]
    rfl

/-- An idle indexer with an empty snapshot. -/
def ixIdle : MarketIndexer := ⟨[], false⟩

/-- Witness for C10: on an idle empty index, searching TSLA returns only the
synthetic manual entry. -/
theorem market_search_manual_fallback_witness :
    ixIdle.search "TSLA"
        = ixIdle.markets.filter (entryMatches (pyUpper "TSLA")) ++ [manualEntry (pyUpper "TSLA")]
      ∧ entryGet (manualEntry (pyUpper "TSLA")) "exchange" = "yahoo"
      ∧ entryGet (manualEntry (pyUpper "TSLA")) "symbol" = pyUpper "TSLA"
      ∧ entryGet (manualEntry (pyUpper "TSLA")) "base" = "Manual Search"
      ∧ (ixIdle.markets.filter (entryMatches (pyUpper "TSLA")) = [] →
          ixIdle.search "TSLA" = [manualEntry (pyUpper "TSLA")]) :=
  market_search_manual_fallback ixIdle "TSLA" (by simp [ixIdle]) (by decide) (by decide)

end Larrsson
